import Mathlib

/-!
Verification development for the creature-catalog service (`PokemonService`,
`src/pokemon/pokemon.service.ts`) backed by a MongoDB/Mongoose document store.

The service methods (`create`, `findAll`, `findOne`, `update`, `remove`,
`handleExceptions`) are shallowly embedded from the TypeScript source.  The
document store itself (the Mongoose model with the unique indexes declared in
`pokemon.entity.ts`, a file not present in the sources) is modelled from the
spec: unique indexes on `name` and `no`, storage identifiers (ObjectIds)
assigned at insert.  Store faults other than index violations are represented
by an injected `Option DbError` argument (`none` = the store operates
normally), mirroring that any Mongoose call may reject with an arbitrary
driver error.

Modelling conventions:
  - machine strings are Lean `String`s; `toLocaleLowerCase`/`toLowerCase` are
    modelled by `locLower`, exact on ASCII (the unicode tail of the JS locale
    functions is out of scope);
  - `+term` / `!isNaN(+term)` (JS string-to-number) is modelled by `jsNumVal`
    on the fragment this development quantifies over: the empty string (value
    0) and all-decimal-digit strings; other JS numeric literal shapes
    (signed, fractional, exponent, 0x/0o/0b, whitespace-padded, Infinity) are
    outside every term shape exercised here and are not modelled;
  - Mongo ObjectIds are modelled as 24-character lowercase-hex renderings of
    a per-state counter (`nextId`); `isValidObjectId` follows Mongoose's
    `ObjectId.isValid` on strings (24 hex chars, or any 12-char string);
  - exceptions become explicit error values: `NotFoundException` ↦
    `Err.notFound`, `BadRequestException` ↦ `Err.badRequest`,
    `InternalServerErrorException` ↦ `Err.internalServerError`; an uncaught
    raw store error propagating out of a service method is `ServiceErr.store`.
-/

/-- ASCII model of JS `toLocaleLowerCase`/`toLowerCase` on a character. -/
def lowerChar (c : Char) : Char :=
  if 65 ≤ c.toNat ∧ c.toNat ≤ 90 then Char.ofNat (c.toNat + 32) else c

/-- ASCII model of JS `toLocaleLowerCase`/`toLowerCase` on a string. -/
def locLower (s : String) : String :=
  String.mk (s.data.map lowerChar)

/-- Model of JS `+s` restricted to the fragment used here: `""` has value 0
(JS `Number("") = 0`) and a non-empty all-decimal-digit string has its decimal
value; everything else is non-numeric (`NaN`). -/
def jsNumVal (s : String) : Option Nat :=
  if s = "" then some 0
  else if s.data.all Char.isDigit then
    some (s.data.foldl (fun a c => 10 * a + (c.toNat - 48)) 0)
  else none

/-- Model of JS `!isNaN(+s)` on the fragment described at `jsNumVal`. -/
def jsNumeric (s : String) : Bool :=
  (jsNumVal s).isSome

/-- Hexadecimal digit characters, as used by Mongoose's ObjectId check. -/
def isHexChar (c : Char) : Bool :=
  c.isDigit || ('a' ≤ c && c ≤ 'f') || ('A' ≤ c && c ≤ 'F')

/-- Model of Mongoose `isValidObjectId` on a string: a 24-character hex
string, or any 12-character string (interpreted as 12 raw bytes). -/
def isValidObjectId (s : String) : Bool :=
  (s.length == 24 && s.data.all isHexChar) || s.length == 12

/-- The lowercase hex digit for `n % 16`. -/
def hexDigit (n : Nat) : Char :=
  "0123456789abcdef".data.getD (n % 16) '0'

/-- Big-endian fixed-width hex rendering: exactly `k` digits of `n`. -/
def hexChars : Nat → Nat → List Char
  | 0, _ => []
  | k + 1, n => hexChars k (n / 16) ++ [hexDigit (n % 16)]

/-- Model of the ObjectId the store assigns to the `n`-th inserted document:
the 24-hex-digit rendering of `n` (faithful to the 12-byte ObjectId value
space for `n < 16 ^ 24`). -/
def mkObjectId (n : Nat) : String :=
  String.mk (hexChars 24 n)

/-- A persisted record: `name` and `no` from the create payload plus the
store-assigned identifier (`_id`, here the counter value behind the rendered
ObjectId). -/
structure Pokemon where
  name : String
  no : Nat
  id : Nat
deriving Repr, DecidableEq

/-- The document store's state: the persisted documents in insertion order
and the counter from which the next ObjectId is minted. -/
structure DbState where
  docs : List Pokemon
  nextId : Nat
deriving Repr, DecidableEq

/-- `CreatePokemonDto` (`create-pokemon.dto.ts`): a name and a number. -/
structure CreatePokemonDto where
  name : String
  no : Nat
deriving Repr, DecidableEq

/-- Modelled from the spec: `UpdatePokemonDto` (`update-pokemon.dto.ts` is
not among the sources) is the partial of the create payload — both fields
optional. -/
structure UpdatePokemonDto where
  name : Option String := none
  no : Option Nat := none
deriving Repr, DecidableEq

/-- Modelled from the spec: `PaginationDto` (`common/dtos/pagination.dto.ts`
is not among the sources) carries an optional page size and offset. -/
structure PaginationDto where
  limit : Option Nat := none
  offset : Option Nat := none
deriving Repr, DecidableEq

/-- A store-native error: a numeric driver code (11000 for a unique-index
violation) and, for duplicates, the conflicting field names (`keyValue`). -/
structure DbError where
  code : Nat
  keyValue : List String
deriving Repr, DecidableEq

/-- The HTTP-exception taxonomy thrown by the service:
`NotFoundException`, `BadRequestException` (the spec's `DuplicateKey`),
`InternalServerErrorException` (the spec's `Unavailable`). -/
inductive Err where
  | notFound (msg : String)
  | badRequest (msg : String)
  | internalServerError (msg : String)
deriving Repr, DecidableEq

/-- What can escape a service method: a thrown HTTP exception, or a raw
store error that the method did not translate. -/
inductive ServiceErr where
  | http (e : Err)
  | store (e : DbError)
deriving Repr, DecidableEq

instance {ε α : Type} [DecidableEq ε] [DecidableEq α] : DecidableEq (Except ε α) := fun x y =>
  match x, y with
  | .ok a, .ok b =>
    if h : a = b then isTrue (h ▸ rfl) else isFalse (fun hh => h (Except.ok.inj hh))
  | .ok _, .error _ => isFalse (fun hh => Except.noConfusion hh)
  | .error _, .ok _ => isFalse (fun hh => Except.noConfusion hh)
  | .error e, .error f =>
    if h : e = f then isTrue (h ▸ rfl) else isFalse (fun hh => h (Except.error.inj hh))

/-- The three lookup strategies of the term resolver, in source order. -/
inductive Strategy where
  | byNo
  | byId
  | byName
deriving Repr, DecidableEq

namespace pokemonModel

/-- Modelled from the spec: point query `findOne({ no })` under the unique
index on `no` declared in the missing `pokemon.entity.ts`. -/
def findByNo (st : DbState) (n : Nat) : Option Pokemon :=
  st.docs.find? (fun p => p.no == n)

/-- `findById(term)`: point query on the store-assigned `_id`. -/
def findById (st : DbState) (idStr : String) : Option Pokemon :=
  st.docs.find? (fun p => mkObjectId p.id == idStr)

/-- Modelled from the spec: point query `findOne({ name })` under the unique
index on `name` declared in the missing `pokemon.entity.ts`. -/
def findByName (st : DbState) (s : String) : Option Pokemon :=
  st.docs.find? (fun p => p.name == s)

/-- The unique-index fields an insert of `d` would violate (the duplicate
error's `keyValue`), checked against the spec's unique indexes on `name` and
`no`. -/
def insertConflicts (st : DbState) (d : CreatePokemonDto) : List String :=
  (if st.docs.any (fun p => p.name == d.name) then ["name"] else []) ++
    (if st.docs.any (fun p => p.no == d.no) then ["no"] else [])

/-- Modelled from the spec: `pokemonModel.create(doc)`.  An injected fault
rejects with that error; a unique-index violation rejects with driver code
11000 and the conflicting fields; otherwise the document is appended with a
fresh ObjectId. -/
def create (fault : Option DbError) (st : DbState) (d : CreatePokemonDto) :
    Except DbError (Pokemon × DbState) :=
  match fault with
  | some e => .error e
  | none =>
    if insertConflicts st d = [] then
      let p : Pokemon := ⟨d.name, d.no, st.nextId⟩
      .ok (p, ⟨st.docs ++ [p], st.nextId + 1⟩)
    else .error ⟨11000, insertConflicts st d⟩

/-- The effect of `$set`-ing the supplied fields of `d` on document `p`. -/
def applyUpdate (d : UpdatePokemonDto) (p : Pokemon) : Pokemon :=
  ⟨d.name.getD p.name, d.no.getD p.no, p.id⟩

/-- The unique-index fields an update of document `id` to `d` would violate
(conflicts are with other documents only). -/
def updateConflicts (st : DbState) (id : Nat) (d : UpdatePokemonDto) : List String :=
  (if st.docs.any (fun q => q.id != id && d.name == some q.name) then ["name"] else []) ++
    (if st.docs.any (fun q => q.id != id && d.no == some q.no) then ["no"] else [])

/-- Modelled from the spec: `doc.updateOne(d)` on the document with the given
`_id`.  An injected fault rejects with that error; a unique-index violation
rejects with driver code 11000; otherwise the supplied fields are set on that
document. -/
def updateOne (fault : Option DbError) (st : DbState) (id : Nat) (d : UpdatePokemonDto) :
    Except DbError DbState :=
  match fault with
  | some e => .error e
  | none =>
    if updateConflicts st id d = [] then
      .ok ⟨st.docs.map (fun q => if q.id == id then applyUpdate d q else q), st.nextId⟩
    else .error ⟨11000, updateConflicts st id d⟩

/-- The driver error Mongoose raises when a filter value cannot be cast to an
ObjectId (a `CastError`: no duplicate-key code). -/
def castError : DbError :=
  ⟨0, []⟩

/-- Modelled from the spec: `pokemonModel.deleteOne({ _id })`.  An injected
fault rejects with that error; a malformed id rejects with a `CastError`;
otherwise the first matching document (at most one, ids are unique) is
removed and the acknowledgement carries `deletedCount`. -/
def deleteOne (fault : Option DbError) (st : DbState) (idStr : String) :
    Except DbError (Nat × DbState) :=
  match fault with
  | some e => .error e
  | none =>
    if isValidObjectId idStr then
      match st.docs.find? (fun p => mkObjectId p.id == idStr) with
      | some _ => .ok (1, ⟨st.docs.eraseP (fun p => mkObjectId p.id == idStr), st.nextId⟩)
      | none => .ok (0, st)
    else .error castError

end pokemonModel

namespace PokemonService

/-- `handleExceptions(error)`: driver code 11000 becomes a
`BadRequestException` naming the conflicting `keyValue`; any other store
error becomes a generic `InternalServerErrorException`. -/
def handleExceptions (error : DbError) : Err :=
  if error.code == 11000 then
    .badRequest ("Pokemon already exists in db " ++ String.intercalate "," error.keyValue)
  else
    .internalServerError "Problemas con actualizar el pokemon - Chequear los logs"

/-- `create(createPokemonDto)`: lower-cases `name` in place on the supplied
dto, then inserts; store errors are translated by `handleExceptions`.  The
result carries the outcome, the final store state, and the dto object as the
caller observes it after the call (the source mutates it in place). -/
def create (fault : Option DbError) (st : DbState) (createPokemonDto : CreatePokemonDto) :
    Except ServiceErr Pokemon × DbState × CreatePokemonDto :=
  let createPokemonDto := { createPokemonDto with name := locLower createPokemonDto.name }
  match pokemonModel.create fault st createPokemonDto with
  | .ok (pokemon, st') => (.ok pokemon, st', createPokemonDto)
  | .error e => (.error (.http (handleExceptions e)), st, createPokemonDto)

/-- Mongo applies `limit` after `sort` and `skip` whatever the chaining
order; `limit(0)` means no limit. -/
def applyLimit (limit : Nat) (l : List Pokemon) : List Pokemon :=
  if limit = 0 then l else l.take limit

/-- `findAll(paginationDto)`: destructuring defaults (`limit` falls back to
the configured `defaultLimit`, `offset` to 0), then
`find().limit(limit).skip(offset).sort({ no: 1 })` — Mongo sorts ascending by
`no`, then skips, then limits. -/
def findAll (defaultLimit : Nat) (st : DbState) (paginationDto : PaginationDto) : List Pokemon :=
  let limit := paginationDto.limit.getD defaultLimit
  let offset := paginationDto.offset.getD 0
  applyLimit limit ((List.insertionSort (fun a b => a.no ≤ b.no) st.docs).drop offset)

/-- `findOne(term)` — the term resolver.  Mirrors the source's fallback
chain: a numeric term is first looked up by `no`; if still unmatched and the
term is ObjectId-shaped, by `_id`; if still unmatched, by lower-cased `name`;
`NotFoundException` only when all attempted lookups miss.  The second
component records, in order, the strategies attempted (each is exactly one
point query against the store). -/
def findOne (st : DbState) (term : String) : Except Err Pokemon × List Strategy :=
  let res1 : Option Pokemon × List Strategy :=
    if jsNumeric term then
      (pokemonModel.findByNo st ((jsNumVal term).getD 0), [Strategy.byNo])
    else (none, [])
  let res2 : Option Pokemon × List Strategy :=
    if res1.1.isNone && isValidObjectId term then
      (pokemonModel.findById st term, res1.2 ++ [Strategy.byId])
    else res1
  let res3 : Option Pokemon × List Strategy :=
    if res2.1.isNone then
      (pokemonModel.findByName st (locLower term), res2.2 ++ [Strategy.byName])
    else res2
  match res3.1 with
  | some pokemon => (.ok pokemon, res3.2)
  | none =>
    (.error (.notFound ("Pokemon con término \"" ++ term ++ "\" no encontrado")), res3.2)

/-- `update(term, updatePokemonDto)`: resolves via `findOne` (its
`NotFoundException` propagates untouched, before any write and before the dto
is touched), lower-cases a supplied (truthy, i.e. non-empty) `name` in place
on the dto, applies the partial via `updateOne` (store errors translated by
`handleExceptions`), and returns the spread
`{ ...pokemon.toJSON(), ...updatePokemonDto }` — the previously loaded
document merged with the supplied fields, not a re-read.  The result carries
the outcome, the final store state, and the dto as the caller observes it. -/
def update (fault : Option DbError) (st : DbState) (term : String)
    (updatePokemonDto : UpdatePokemonDto) :
    Except ServiceErr Pokemon × DbState × UpdatePokemonDto :=
  match (findOne st term).1 with
  | .error e => (.error (.http e), st, updatePokemonDto)
  | .ok pokemon =>
    let updatePokemonDto :=
      match updatePokemonDto.name with
      | some n => if n = "" then updatePokemonDto else { updatePokemonDto with name := some (locLower n) }
      | none => updatePokemonDto
    match pokemonModel.updateOne fault st pokemon.id updatePokemonDto with
    | .ok st' =>
      (.ok ⟨updatePokemonDto.name.getD pokemon.name, updatePokemonDto.no.getD pokemon.no,
          pokemon.id⟩,
        st', updatePokemonDto)
    | .error e => (.error (.http (handleExceptions e)), st, updatePokemonDto)

/-- `remove(_id)`: `deleteOne({ _id })` with no try/catch — a store failure
propagates raw (`ServiceErr.store`), untranslated; `deletedCount === 0`
raises `NotFoundException`; otherwise the success message object (no record
payload). -/
def remove (fault : Option DbError) (st : DbState) (_id : String) :
    Except ServiceErr String × DbState :=
  match pokemonModel.deleteOne fault st _id with
  | .error e => (.error (.store e), st)
  | .ok (deletedCount, st') =>
    if deletedCount == 0 then
      (.error (.http (.notFound ("Pokemon con id \"" ++ _id ++ "\" no encontrado"))), st')
    else (.ok "Pokemon eliminado", st')

end PokemonService

/-- The store's integrity invariant: pairwise distinct names, ordinals and
ids; names persisted in lower-case form; ordinals positive (DTO validation);
ids below the mint counter. -/
def DbInv (st : DbState) : Prop :=
  st.docs.Pairwise (fun p q => p.name ≠ q.name ∧ p.no ≠ q.no ∧ p.id ≠ q.id) ∧
    (∀ p ∈ st.docs, locLower p.name = p.name) ∧
    (∀ p ∈ st.docs, 1 ≤ p.no) ∧
    (∀ p ∈ st.docs, p.id < st.nextId)

/-- Input-shape validation on the create payload (`class-validator`:
`MinLength(3)` on `name`, `IsPositive` on `no`). -/
def ValidCreate (d : CreatePokemonDto) : Prop :=
  3 ≤ d.name.length ∧ 1 ≤ d.no

instance : IsTotal Pokemon (fun a b => a.no ≤ b.no) :=
  ⟨fun a b => Nat.le_total a.no b.no⟩

instance : IsTrans Pokemon (fun a b => a.no ≤ b.no) :=
  ⟨fun _ _ _ h h2 => Nat.le_trans h h2⟩

/-! ### Helper lemmas: characters, strings, hex ids, point queries -/

theorem toNat_charOfNat {n : Nat} (h : n < 55296) : (Char.ofNat n).toNat = n := by
  have hv : n.isValidChar := Or.inl h
  rw [Char.ofNat, dif_pos hv]
  rfl

theorem lowerChar_toNat_of_upper {c : Char} (h : 65 ≤ c.toNat ∧ c.toNat ≤ 90) :
    (lowerChar c).toNat = c.toNat + 32 := by
  rw [lowerChar, if_pos h]
  exact toNat_charOfNat (by omega)

theorem lowerChar_idem (c : Char) : lowerChar (lowerChar c) = lowerChar c := by
  by_cases h : 65 ≤ c.toNat ∧ c.toNat ≤ 90
  · have h2 : (lowerChar c).toNat = c.toNat + 32 := lowerChar_toNat_of_upper h
    have h3 : ¬ (65 ≤ (lowerChar c).toNat ∧ (lowerChar c).toNat ≤ 90) := by omega
    conv_lhs => rw [lowerChar]
    rw [if_neg h3]
  · have hc : lowerChar c = c := by rw [lowerChar, if_neg h]
    rw [hc, hc]

theorem map_lowerChar_idem (l : List Char) :
    (l.map lowerChar).map lowerChar = l.map lowerChar := by
  induction l with
  | nil => rfl
  | cons c cs ih => simp [lowerChar_idem, ih]

theorem locLower_idem (s : String) : locLower (locLower s) = locLower s :=
  congrArg String.mk (map_lowerChar_idem s.data)

theorem find?_unique {α : Type} {p : α → Bool} {l : List α} {a : α} (ha : a ∈ l)
    (hpa : p a = true) (h : ∀ b ∈ l, p b = true → b = a) : l.find? p = some a := by
  induction l with
  | nil => cases ha
  | cons x xs ih =>
    by_cases hx : p x = true
    · rw [List.find?_cons_of_pos _ hx]
      exact congrArg some (h x (List.mem_cons_self x xs) hx)
    · rw [List.find?_cons_of_neg _ (by simpa using hx)]
      rcases List.mem_cons.mp ha with rfl | ha'
      · exact absurd hpa hx
      · exact ih ha' (fun b hb => h b (List.mem_cons_of_mem x hb))

theorem pairwise_ne_inj {α κ : Type} {key : α → κ} {l : List α}
    (h : l.Pairwise (fun a b => key a ≠ key b)) :
    ∀ a ∈ l, ∀ b ∈ l, key a = key b → a = b := by
  induction l with
  | nil => intro a ha; cases ha
  | cons x xs ih =>
    rcases List.pairwise_cons.mp h with ⟨hx, hxs⟩
    intro a ha b hb hk
    rcases List.mem_cons.mp ha with rfl | ha' <;> rcases List.mem_cons.mp hb with rfl | hb'
    · rfl
    · exact absurd hk (hx b hb')
    · exact absurd hk.symm (hx a ha')
    · exact ih hxs a ha' b hb' hk

theorem hexChars_length (k n : Nat) : (hexChars k n).length = k := by
  induction k generalizing n with
  | zero => rfl
  | succ k ih => simp [hexChars, ih]

theorem hexDigit_inj_fin : ∀ a b : Fin 16, hexDigit a.val = hexDigit b.val → a = b := by decide

theorem hexDigit_hex_fin : ∀ a : Fin 16, isHexChar (hexDigit a.val) = true := by decide

theorem hexChars_hex {k n : Nat} : ∀ c ∈ hexChars k n, isHexChar c = true := by
  induction k generalizing n with
  | zero => intro c hc; cases hc
  | succ k ih =>
    intro c hc
    rcases List.mem_append.mp hc with h | h
    · exact ih c h
    · rcases List.mem_singleton.mp h with rfl
      have := hexDigit_hex_fin ⟨n % 16, Nat.mod_lt n (by omega)⟩
      simpa using this

theorem hexChars_inj {k m n : Nat} (hm : m < 16 ^ k) (hn : n < 16 ^ k)
    (h : hexChars k m = hexChars k n) : m = n := by
  induction k generalizing m n with
  | zero =>
    simp [Nat.pow_zero] at hm hn
    omega
  | succ k ih =>
    rw [hexChars, hexChars] at h
    have hlen : (hexChars k (m / 16)).length = (hexChars k (n / 16)).length := by
      simp [hexChars_length]
    obtain ⟨h1, h2⟩ := List.append_inj h hlen
    have hdig : m % 16 = n % 16 := by
      have hx := List.head_eq_of_cons_eq h2
      have := hexDigit_inj_fin ⟨m % 16, Nat.mod_lt m (by omega)⟩ ⟨n % 16, Nat.mod_lt n (by omega)⟩ hx
      simpa using congrArg Fin.val this
    have hmk : m / 16 < 16 ^ k := by
      apply Nat.div_lt_of_lt_mul
      calc m < 16 ^ (k + 1) := hm
      _ = 16 * 16 ^ k := by rw [Nat.pow_succ]; ring
    have hnk : n / 16 < 16 ^ k := by
      apply Nat.div_lt_of_lt_mul
      calc n < 16 ^ (k + 1) := hn
      _ = 16 * 16 ^ k := by rw [Nat.pow_succ]; ring
    have hdiv : m / 16 = n / 16 := ih hmk hnk h1
    omega

theorem mkObjectId_inj {m n : Nat} (hm : m < 16 ^ 24) (hn : n < 16 ^ 24)
    (h : mkObjectId m = mkObjectId n) : m = n := by
  apply hexChars_inj hm hn
  have := congrArg String.data h
  simpa [mkObjectId] using this

theorem isValidObjectId_mkObjectId (n : Nat) : isValidObjectId (mkObjectId n) = true := by
  have h1 : (mkObjectId n).length = 24 := by
    simp [mkObjectId, String.length, hexChars_length]
  have h2 : (mkObjectId n).data.all isHexChar = true := by
    rw [List.all_eq_true]
    intro c hc
    exact hexChars_hex c (by simpa [mkObjectId] using hc)
  simp [isValidObjectId, h1, h2]

/-! ### Store-level lemmas under the integrity invariant -/

theorem DbInv.names_inj {st : DbState} (h : DbInv st) :
    ∀ a ∈ st.docs, ∀ b ∈ st.docs, a.name = b.name → a = b :=
  pairwise_ne_inj (h.1.imp (fun hab => hab.1))

theorem DbInv.nos_inj {st : DbState} (h : DbInv st) :
    ∀ a ∈ st.docs, ∀ b ∈ st.docs, a.no = b.no → a = b :=
  pairwise_ne_inj (h.1.imp (fun hab => hab.2.1))

theorem DbInv.ids_inj {st : DbState} (h : DbInv st) :
    ∀ a ∈ st.docs, ∀ b ∈ st.docs, a.id = b.id → a = b :=
  pairwise_ne_inj (h.1.imp (fun hab => hab.2.2))

theorem findByNo_self {st : DbState} (h : DbInv st) {p : Pokemon} (hp : p ∈ st.docs) :
    pokemonModel.findByNo st p.no = some p := by
  apply find?_unique hp (by simp)
  intro b hb hbeq
  exact h.nos_inj b hb p hp (by simpa using hbeq)

theorem findByName_self {st : DbState} (h : DbInv st) {p : Pokemon} (hp : p ∈ st.docs) :
    pokemonModel.findByName st p.name = some p := by
  apply find?_unique hp (by simp)
  intro b hb hbeq
  exact h.names_inj b hb p hp (by simpa using hbeq)

theorem findById_self {st : DbState} (h : DbInv st) (hspace : st.nextId ≤ 16 ^ 24)
    {p : Pokemon} (hp : p ∈ st.docs) :
    pokemonModel.findById st (mkObjectId p.id) = some p := by
  apply find?_unique hp (by simp)
  intro b hb hbeq
  have hb24 : b.id < 16 ^ 24 := lt_of_lt_of_le (h.2.2.2 b hb) hspace
  have hp24 : p.id < 16 ^ 24 := lt_of_lt_of_le (h.2.2.2 p hp) hspace
  have heq : mkObjectId b.id = mkObjectId p.id := by simpa using hbeq
  exact h.ids_inj b hb p hp (mkObjectId_inj hb24 hp24 heq)

theorem insertConflicts_eq_nil {st : DbState} {d : CreatePokemonDto} :
    pokemonModel.insertConflicts st d = [] ↔
      (∀ q ∈ st.docs, q.name ≠ d.name) ∧ (∀ q ∈ st.docs, q.no ≠ d.no) := by
  unfold pokemonModel.insertConflicts
  constructor
  · intro h
    constructor
    · intro q hq hname
      have : st.docs.any (fun p => p.name == d.name) = true :=
        List.any_eq_true.mpr ⟨q, hq, by simp [hname]⟩
      simp [this] at h
    · intro q hq hno
      have : st.docs.any (fun p => p.no == d.no) = true :=
        List.any_eq_true.mpr ⟨q, hq, by simp [hno]⟩
      simp [this] at h
  · intro ⟨h1, h2⟩
    have e1 : st.docs.any (fun p => p.name == d.name) = false := by
      rw [List.any_eq_false]
      intro q hq
      simp [h1 q hq]
    have e2 : st.docs.any (fun p => p.no == d.no) = false := by
      rw [List.any_eq_false]
      intro q hq
      simp [h2 q hq]
    simp [e1, e2]

theorem mem_insertConflicts_name {st : DbState} {d : CreatePokemonDto} :
    "name" ∈ pokemonModel.insertConflicts st d ↔ ∃ q ∈ st.docs, q.name = d.name := by
  unfold pokemonModel.insertConflicts
  constructor
  · intro h
    rcases List.mem_append.mp h with h' | h' <;> revert h' <;> split <;>
      simp_all [List.any_eq_true]
  · intro ⟨q, hq, hname⟩
    have : st.docs.any (fun p => p.name == d.name) = true :=
      List.any_eq_true.mpr ⟨q, hq, by simp [hname]⟩
    simp [this]

theorem mem_insertConflicts_no {st : DbState} {d : CreatePokemonDto} :
    "no" ∈ pokemonModel.insertConflicts st d ↔ ∃ q ∈ st.docs, q.no = d.no := by
  unfold pokemonModel.insertConflicts
  constructor
  · intro h
    rcases List.mem_append.mp h with h' | h' <;> revert h' <;> split <;>
      simp_all [List.any_eq_true]
  · intro ⟨q, hq, hno⟩
    have : st.docs.any (fun p => p.no == d.no) = true :=
      List.any_eq_true.mpr ⟨q, hq, by simp [hno]⟩
    simp [this]

/-! ### Service-level characterizations -/

theorem create_ok_elim {fault : Option DbError} {st : DbState} {d : CreatePokemonDto}
    {p : Pokemon} {st' : DbState} {dto' : CreatePokemonDto}
    (h : PokemonService.create fault st d = (.ok p, st', dto')) :
    fault = none ∧
      pokemonModel.insertConflicts st ⟨locLower d.name, d.no⟩ = [] ∧
      p = ⟨locLower d.name, d.no, st.nextId⟩ ∧
      st' = ⟨st.docs ++ [⟨locLower d.name, d.no, st.nextId⟩], st.nextId + 1⟩ ∧
      dto' = ⟨locLower d.name, d.no⟩ := by
  cases fault with
  | some e => simp [PokemonService.create, pokemonModel.create] at h
  | none =>
    by_cases hc : pokemonModel.insertConflicts st ⟨locLower d.name, d.no⟩ = []
    · simp [PokemonService.create, pokemonModel.create, hc] at h
      exact ⟨rfl, hc, h.1.symm, by simp [h.2.1.symm, h.1.symm], by simp [h.2.2.symm]⟩
    · simp [PokemonService.create, pokemonModel.create, hc] at h

theorem DbInv_create {st : DbState} {d : CreatePokemonDto} {p : Pokemon} {st' : DbState}
    {dto' : CreatePokemonDto} (hinv : DbInv st) (hno : 1 ≤ d.no)
    (h : PokemonService.create none st d = (.ok p, st', dto')) : DbInv st' := by
  obtain ⟨-, hc, hp, hst, -⟩ := create_ok_elim h
  rcases insertConflicts_eq_nil.mp hc with ⟨hcn, hco⟩
  subst hst
  refine ⟨?_, ?_, ?_, ?_⟩
  · rw [List.pairwise_append]
    refine ⟨hinv.1, List.pairwise_singleton _ _, ?_⟩
    intro a ha b hb
    rcases List.mem_singleton.mp hb with rfl
    exact ⟨hcn a ha, hco a ha, Nat.ne_of_lt (hinv.2.2.2 a ha)⟩
  · intro q hq
    rcases List.mem_append.mp hq with h' | h'
    · exact hinv.2.1 q h'
    · rcases List.mem_singleton.mp h' with rfl
      exact locLower_idem d.name
  · intro q hq
    rcases List.mem_append.mp hq with h' | h'
    · exact hinv.2.2.1 q h'
    · rcases List.mem_singleton.mp h' with rfl
      exact hno
  · intro q hq
    rcases List.mem_append.mp hq with h' | h'
    · exact Nat.lt_succ_of_lt (hinv.2.2.2 q h')
    · rcases List.mem_singleton.mp h' with rfl
      exact Nat.lt_succ_self _

theorem findOne_numeric_hit {st : DbState} {term : String} {v : Nat} {p : Pokemon}
    (hv : jsNumVal term = some v) (hp : pokemonModel.findByNo st v = some p) :
    PokemonService.findOne st term = (.ok p, [Strategy.byNo]) := by
  simp [PokemonService.findOne, jsNumeric, hv, hp]

theorem findOne_numeric_miss_id_hit {st : DbState} {term : String} {v : Nat} {p : Pokemon}
    (hv : jsNumVal term = some v) (hmiss : pokemonModel.findByNo st v = none)
    (hid : isValidObjectId term = true) (hp : pokemonModel.findById st term = some p) :
    PokemonService.findOne st term = (.ok p, [Strategy.byNo, Strategy.byId]) := by
  simp [PokemonService.findOne, jsNumeric, hv, hmiss, hid, hp]

theorem findOne_numeric_miss_name_hit {st : DbState} {term : String} {v : Nat} {p : Pokemon}
    (hv : jsNumVal term = some v) (hmiss : pokemonModel.findByNo st v = none)
    (hid : isValidObjectId term = false)
    (hp : pokemonModel.findByName st (locLower term) = some p) :
    PokemonService.findOne st term = (.ok p, [Strategy.byNo, Strategy.byName]) := by
  simp [PokemonService.findOne, jsNumeric, hv, hmiss, hid, hp]

theorem findOne_numeric_miss_name_miss {st : DbState} {term : String} {v : Nat}
    (hv : jsNumVal term = some v) (hmiss : pokemonModel.findByNo st v = none)
    (hid : isValidObjectId term = false)
    (hp : pokemonModel.findByName st (locLower term) = none) :
    PokemonService.findOne st term =
      (.error (.notFound ("Pokemon con término \"" ++ term ++ "\" no encontrado")),
        [Strategy.byNo, Strategy.byName]) := by
  simp [PokemonService.findOne, jsNumeric, hv, hmiss, hid, hp]

theorem findOne_numeric_miss_id_miss {st : DbState} {term : String} {v : Nat}
    (hv : jsNumVal term = some v) (hmiss : pokemonModel.findByNo st v = none)
    (hid : isValidObjectId term = true) (hmiss2 : pokemonModel.findById st term = none) :
    (PokemonService.findOne st term).2 = [Strategy.byNo, Strategy.byId, Strategy.byName] := by
  cases hp : pokemonModel.findByName st (locLower term) <;>
    simp [PokemonService.findOne, jsNumeric, hv, hmiss, hid, hmiss2, hp]

theorem findOne_nonnumeric_id_hit {st : DbState} {term : String} {p : Pokemon}
    (hnum : jsNumVal term = none) (hid : isValidObjectId term = true)
    (hp : pokemonModel.findById st term = some p) :
    PokemonService.findOne st term = (.ok p, [Strategy.byId]) := by
  simp [PokemonService.findOne, jsNumeric, hnum, hid, hp]

theorem findOne_name_hit {st : DbState} {term : String} {p : Pokemon}
    (hnum : jsNumVal term = none) (hid : isValidObjectId term = false)
    (hp : pokemonModel.findByName st (locLower term) = some p) :
    PokemonService.findOne st term = (.ok p, [Strategy.byName]) := by
  simp [PokemonService.findOne, jsNumeric, hnum, hid, hp]

theorem findOne_error_notFound {st : DbState} {term : String} {e : Err}
    (h : (PokemonService.findOne st term).1 = .error e) :
    e = .notFound ("Pokemon con término \"" ++ term ++ "\" no encontrado") := by
  by_cases h1 : jsNumeric term
  · cases h2 : pokemonModel.findByNo st ((jsNumVal term).getD 0) with
    | some p => simp [PokemonService.findOne, h1, h2] at h
    | none =>
      by_cases h3 : isValidObjectId term
      · cases h4 : pokemonModel.findById st term with
        | some p => simp [PokemonService.findOne, h1, h2, h3, h4] at h
        | none =>
          cases h5 : pokemonModel.findByName st (locLower term) with
          | some p => simp [PokemonService.findOne, h1, h2, h3, h4, h5] at h
          | none =>
            simp [PokemonService.findOne, h1, h2, h3, h4, h5] at h
            simp [h]
      · cases h5 : pokemonModel.findByName st (locLower term) with
        | some p => simp [PokemonService.findOne, h1, h2, h3, h5] at h
        | none =>
          simp [PokemonService.findOne, h1, h2, h3, h5] at h
          simp [h]
  · by_cases h3 : isValidObjectId term
    · cases h4 : pokemonModel.findById st term with
      | some p => simp [PokemonService.findOne, h1, h3, h4] at h
      | none =>
        cases h5 : pokemonModel.findByName st (locLower term) with
        | some p => simp [PokemonService.findOne, h1, h3, h4, h5] at h
        | none =>
          simp [PokemonService.findOne, h1, h3, h4, h5] at h
          simp [h]
    · cases h5 : pokemonModel.findByName st (locLower term) with
      | some p => simp [PokemonService.findOne, h1, h3, h5] at h
      | none =>
        simp [PokemonService.findOne, h1, h3, h5] at h
        simp [h]

theorem findOne_ok_mem {st : DbState} {term : String} {p : Pokemon}
    (h : (PokemonService.findOne st term).1 = .ok p) : p ∈ st.docs := by
  by_cases h1 : jsNumeric term
  · cases h2 : pokemonModel.findByNo st ((jsNumVal term).getD 0) with
    | some q =>
      simp [PokemonService.findOne, h1, h2] at h
      subst h
      exact List.mem_of_find?_eq_some h2
    | none =>
      by_cases h3 : isValidObjectId term
      · cases h4 : pokemonModel.findById st term with
        | some q =>
          simp [PokemonService.findOne, h1, h2, h3, h4] at h
          subst h
          exact List.mem_of_find?_eq_some h4
        | none =>
          cases h5 : pokemonModel.findByName st (locLower term) with
          | some q =>
            simp [PokemonService.findOne, h1, h2, h3, h4, h5] at h
            subst h
            exact List.mem_of_find?_eq_some h5
          | none => simp [PokemonService.findOne, h1, h2, h3, h4, h5] at h
      · cases h5 : pokemonModel.findByName st (locLower term) with
        | some q =>
          simp [PokemonService.findOne, h1, h2, h3, h5] at h
          subst h
          exact List.mem_of_find?_eq_some h5
        | none => simp [PokemonService.findOne, h1, h2, h3, h5] at h
  · by_cases h3 : isValidObjectId term
    · cases h4 : pokemonModel.findById st term with
      | some q =>
        simp [PokemonService.findOne, h1, h3, h4] at h
        subst h
        exact List.mem_of_find?_eq_some h4
      | none =>
        cases h5 : pokemonModel.findByName st (locLower term) with
        | some q =>
          simp [PokemonService.findOne, h1, h3, h4, h5] at h
          subst h
          exact List.mem_of_find?_eq_some h5
        | none => simp [PokemonService.findOne, h1, h3, h4, h5] at h
    · cases h5 : pokemonModel.findByName st (locLower term) with
      | some q =>
        simp [PokemonService.findOne, h1, h3, h5] at h
        subst h
        exact List.mem_of_find?_eq_some h5
      | none => simp [PokemonService.findOne, h1, h3, h5] at h

theorem update_resolve_error {fault : Option DbError} {st : DbState} {term : String}
    {d : UpdatePokemonDto} {e : Err} (h : (PokemonService.findOne st term).1 = .error e) :
    PokemonService.update fault st term d = (.error (.http e), st, d) := by
  unfold PokemonService.update
  rw [h]

theorem update_ok_elim {fault : Option DbError} {st : DbState} {term : String}
    {d : UpdatePokemonDto} {v : Pokemon} {st' : DbState} {d' : UpdatePokemonDto}
    (hup : PokemonService.update fault st term d = (.ok v, st', d')) :
    fault = none ∧ ∃ p, (PokemonService.findOne st term).1 = .ok p ∧
      d'.no = d.no ∧ d'.name = d.name.map locLower ∧
      pokemonModel.updateConflicts st p.id d' = [] ∧
      st' = ⟨st.docs.map (fun q => if q.id = p.id then pokemonModel.applyUpdate d' q else q),
        st.nextId⟩ ∧
      v = ⟨d'.name.getD p.name, d'.no.getD p.no, p.id⟩ := by
  unfold PokemonService.update at hup
  cases hres : (PokemonService.findOne st term).1 with
  | error e => rw [hres] at hup; simp at hup
  | ok p =>
    rw [hres] at hup
    cases fault with
    | some e => simp [pokemonModel.updateOne] at hup
    | none =>
      refine ⟨rfl, p, rfl, ?_⟩
      cases hn : d.name with
      | none =>
        simp only [hn] at hup
        by_cases hc : pokemonModel.updateConflicts st p.id d = []
        · simp [pokemonModel.updateOne, hc] at hup
          obtain ⟨hv, hst, hd⟩ := hup
          subst hd
          exact ⟨rfl, by simp [hn], hc, hst.symm, by simp [hv.symm, hn]⟩
        · simp [pokemonModel.updateOne, hc] at hup
      | some n =>
        by_cases he : n = ""
        · subst he
          simp only [hn, if_pos rfl] at hup
          by_cases hc : pokemonModel.updateConflicts st p.id d = []
          · simp [pokemonModel.updateOne, hc] at hup
            obtain ⟨hv, hst, hd⟩ := hup
            subst hd
            refine ⟨rfl, ?_, hc, hst.symm, by simp [hv.symm, hn]⟩
            rw [hn]
            rfl
          · simp [pokemonModel.updateOne, hc] at hup
        · simp only [hn, if_neg he] at hup
          by_cases hc :
              pokemonModel.updateConflicts st p.id { d with name := some (locLower n) } = []
          · simp [pokemonModel.updateOne, hc] at hup
            obtain ⟨hv, hst, hd⟩ := hup
            subst hd
            exact ⟨rfl, by simp [hn], hc, hst.symm, by simp [hv.symm, hn]⟩
          · simp [pokemonModel.updateOne, hc] at hup

/-! ### Claim theorems -/

/-- C1 (amended): for a term that parses fully as an integer, the resolver
attempts the ordinal strategy first and each attempted strategy is exactly
one point query; but on an ordinal miss it does NOT fail immediately — it
falls through to the storage-id strategy (iff the term is also id-shaped)
and then to the name strategy, raising `NotFound` only when every attempted
strategy misses. -/
theorem C1_numeric_term_strategy_order (st : DbState) (term : String) (v : Nat)
    (hv : jsNumVal term = some v) :
    (∀ p, pokemonModel.findByNo st v = some p →
        PokemonService.findOne st term = (.ok p, [Strategy.byNo])) ∧
    (pokemonModel.findByNo st v = none → isValidObjectId term = false →
        (∀ p, pokemonModel.findByName st (locLower term) = some p →
            PokemonService.findOne st term = (.ok p, [Strategy.byNo, Strategy.byName])) ∧
        (pokemonModel.findByName st (locLower term) = none →
            PokemonService.findOne st term =
              (.error (.notFound ("Pokemon con término \"" ++ term ++ "\" no encontrado")),
                [Strategy.byNo, Strategy.byName]))) ∧
    (pokemonModel.findByNo st v = none → isValidObjectId term = true →
        (∀ p, pokemonModel.findById st term = some p →
            PokemonService.findOne st term = (.ok p, [Strategy.byNo, Strategy.byId])) ∧
        (pokemonModel.findById st term = none →
            (PokemonService.findOne st term).2 =
              [Strategy.byNo, Strategy.byId, Strategy.byName])) :=
  ⟨fun _ hp => findOne_numeric_hit hv hp,
    fun hm hid =>
      ⟨fun _ hp => findOne_numeric_miss_name_hit hv hm hid hp,
        fun hp => findOne_numeric_miss_name_miss hv hm hid hp⟩,
    fun hm hid =>
      ⟨fun _ hp => findOne_numeric_miss_id_hit hv hm hid hp,
        fun hp => findOne_numeric_miss_id_miss hv hm hid hp⟩⟩

/-- C1 counterexample to the claim as stated: `"500"` parses fully as an
integer and no record has ordinal 500, yet `findOne` does not stop with
`NotFound` after the ordinal strategy — it falls through to the name
strategy and returns the record named `"500"` (which the first conjuncts
show was produced by a perfectly valid create on an empty store). -/
theorem C1_counterexample :
    (PokemonService.create none ⟨[], 0⟩ ⟨"500", 1⟩).1 = .ok ⟨"500", 1, 0⟩ ∧
    (PokemonService.create none ⟨[], 0⟩ ⟨"500", 1⟩).2.1 = ⟨[⟨"500", 1, 0⟩], 1⟩ ∧
    jsNumVal "500" = some 500 ∧
    pokemonModel.findByNo ⟨[⟨"500", 1, 0⟩], 1⟩ 500 = none ∧
    PokemonService.findOne ⟨[⟨"500", 1, 0⟩], 1⟩ "500" =
      (.ok ⟨"500", 1, 0⟩, [Strategy.byNo, Strategy.byName]) := by
  decide

/-- C1 witness: a numeric hit resolves with the ordinal strategy alone, and
a numeric miss on an empty store walks ordinal-then-name before failing. -/
theorem C1_witness :
    PokemonService.findOne ⟨[⟨"pikachu", 25, 0⟩], 1⟩ "25" =
      (.ok ⟨"pikachu", 25, 0⟩, [Strategy.byNo]) ∧
    PokemonService.findOne ⟨[], 0⟩ "7" =
      (.error (.notFound ("Pokemon con término \"" ++ "7" ++ "\" no encontrado")),
        [Strategy.byNo, Strategy.byName]) :=
  ⟨(C1_numeric_term_strategy_order ⟨[⟨"pikachu", 25, 0⟩], 1⟩ "25" 25 (by decide)).1
      ⟨"pikachu", 25, 0⟩ (by decide),
    ((C1_numeric_term_strategy_order ⟨[], 0⟩ "7" 7 (by decide)).2.1 (by decide)
      (by decide)).2 (by decide)⟩

/-- C2 (amended): after a successful valid create, resolving by the ordinal
(any decimal numeral of that value) returns the new record; resolving by the
assigned storage id returns it provided the 24-hex id string does not itself
parse as a number matching some stored ordinal (numeric-looking terms are
first tried as ordinals); resolving by the name in any casing returns it
provided the term is neither numeric nor id-shaped (otherwise an earlier
strategy can shadow the name lookup). -/
theorem C2_create_then_resolve (st : DbState) (d : CreatePokemonDto) (p : Pokemon)
    (st' : DbState) (dto' : CreatePokemonDto) (hinv : DbInv st)
    (hspace : st.nextId < 16 ^ 24) (hvalid : ValidCreate d)
    (hc : PokemonService.create none st d = (.ok p, st', dto')) :
    (∀ term v, jsNumVal term = some v → v = p.no →
        (PokemonService.findOne st' term).1 = .ok p) ∧
    ((∀ q ∈ st'.docs, jsNumVal (mkObjectId p.id) ≠ some q.no) →
        (PokemonService.findOne st' (mkObjectId p.id)).1 = .ok p) ∧
    (∀ term, jsNumVal term = none → isValidObjectId term = false → locLower term = p.name →
        (PokemonService.findOne st' term).1 = .ok p) := by
  have hinv' : DbInv st' := DbInv_create hinv hvalid.2 hc
  obtain ⟨-, hcf, hp, hst, -⟩ := create_ok_elim hc
  have hpmem : p ∈ st'.docs := by
    rw [hst, hp]
    simp
  have hspace' : st'.nextId ≤ 16 ^ 24 := by
    rw [hst]
    show st.nextId + 1 ≤ 16 ^ 24
    omega
  refine ⟨?_, ?_, ?_⟩
  · intro term v hv hvp
    subst hvp
    rw [findOne_numeric_hit hv (findByNo_self hinv' hpmem)]
  · intro hq
    cases hnv : jsNumVal (mkObjectId p.id) with
    | some w =>
      have hmiss : pokemonModel.findByNo st' w = none := by
        apply List.find?_eq_none.mpr
        intro q hqm
        simp only [beq_iff_eq]
        intro hqw
        exact hq q hqm (by rw [hnv, hqw])
      rw [findOne_numeric_miss_id_hit hnv hmiss (isValidObjectId_mkObjectId p.id)
        (findById_self hinv' hspace' hpmem)]
    | none =>
      rw [findOne_nonnumeric_id_hit hnv (isValidObjectId_mkObjectId p.id)
        (findById_self hinv' hspace' hpmem)]
  · intro term hnum hid hname
    have : pokemonModel.findByName st' (locLower term) = some p := by
      rw [hname]
      exact findByName_self hinv' hpmem
    rw [findOne_name_hit hnum hid this]

/-- C2 counterexample to the claim as stated: two valid creates from the
empty store succeed (`{abc, 500}` then `{"500", 1}`), yet resolving the
second record by its own name `"500"` (its exact stored casing) returns the
FIRST record, because the numeric-looking name is tried as an ordinal first
and ordinal 500 exists. -/
theorem C2_counterexample :
    (PokemonService.create none ⟨[], 0⟩ ⟨"abc", 500⟩).2.1 = ⟨[⟨"abc", 500, 0⟩], 1⟩ ∧
    (PokemonService.create none ⟨[⟨"abc", 500, 0⟩], 1⟩ ⟨"500", 1⟩).1 = .ok ⟨"500", 1, 1⟩ ∧
    (PokemonService.create none ⟨[⟨"abc", 500, 0⟩], 1⟩ ⟨"500", 1⟩).2.1 =
      ⟨[⟨"abc", 500, 0⟩, ⟨"500", 1, 1⟩], 2⟩ ∧
    (PokemonService.findOne ⟨[⟨"abc", 500, 0⟩, ⟨"500", 1, 1⟩], 2⟩ "500").1 =
      .ok ⟨"abc", 500, 0⟩ ∧
    Pokemon.mk "abc" 500 0 ≠ Pokemon.mk "500" 1 1 := by
  decide

/-- C2 witness: after creating `{Pikachu, 25}` in the empty store, the
record resolves by `"25"`, by its storage id, and by `"PIKACHU"`. -/
theorem C2_witness :
    (PokemonService.findOne ⟨[⟨"pikachu", 25, 0⟩], 1⟩ "25").1 = .ok ⟨"pikachu", 25, 0⟩ ∧
    (PokemonService.findOne ⟨[⟨"pikachu", 25, 0⟩], 1⟩ (mkObjectId 0)).1 =
      .ok ⟨"pikachu", 25, 0⟩ ∧
    (PokemonService.findOne ⟨[⟨"pikachu", 25, 0⟩], 1⟩ "PIKACHU").1 = .ok ⟨"pikachu", 25, 0⟩ := by
  have h := C2_create_then_resolve ⟨[], 0⟩ ⟨"Pikachu", 25⟩ ⟨"pikachu", 25, 0⟩
    ⟨[⟨"pikachu", 25, 0⟩], 1⟩ ⟨"pikachu", 25⟩ (by unfold DbInv; decide) (by decide)
    (by unfold ValidCreate; decide) (by decide)
  exact ⟨h.1 "25" 25 (by decide) (by decide), h.2.1 (by decide),
    h.2.2 "PIKACHU" (by decide) (by decide) (by decide)⟩

/-- C3 (amended): `create` and `update` translate a store failure exactly
once, at the point the store call returns — driver code 11000 becomes
`DuplicateKey` (`BadRequestException` naming the error's `keyValue`), any
other code becomes `Unavailable` (`InternalServerErrorException`).  `remove`
(delete), however, performs NO translation: its store failures propagate
raw, and in particular are never surfaced as `Unavailable`. -/
theorem C3_error_translation (st : DbState) (d1 : CreatePokemonDto) (term : String)
    (d2 : UpdatePokemonDto) (idStr : String) (e : DbError) :
    (e.code ≠ 11000 →
        (PokemonService.create (some e) st d1).1 =
          .error (.http (.internalServerError
            "Problemas con actualizar el pokemon - Chequear los logs"))) ∧
    (e.code = 11000 →
        (PokemonService.create (some e) st d1).1 =
          .error (.http (.badRequest
            ("Pokemon already exists in db " ++ String.intercalate "," e.keyValue)))) ∧
    (∀ p, (PokemonService.findOne st term).1 = .ok p → e.code ≠ 11000 →
        (PokemonService.update (some e) st term d2).1 =
          .error (.http (.internalServerError
            "Problemas con actualizar el pokemon - Chequear los logs"))) ∧
    (∀ p, (PokemonService.findOne st term).1 = .ok p → e.code = 11000 →
        (PokemonService.update (some e) st term d2).1 =
          .error (.http (.badRequest
            ("Pokemon already exists in db " ++ String.intercalate "," e.keyValue)))) ∧
    (PokemonService.remove (some e) st idStr).1 = .error (.store e) ∧
    (∀ msg, (PokemonService.remove (some e) st idStr).1 ≠
        .error (.http (.internalServerError msg))) := by
  refine ⟨?_, ?_, ?_, ?_, ?_, ?_⟩
  · intro hcode
    simp [PokemonService.create, pokemonModel.create, PokemonService.handleExceptions, hcode]
  · intro hcode
    simp [PokemonService.create, pokemonModel.create, PokemonService.handleExceptions, hcode]
  · intro p hres hcode
    unfold PokemonService.update
    rw [hres]
    cases hn : d2.name with
    | none =>
      simp [hn, pokemonModel.updateOne, PokemonService.handleExceptions, hcode]
    | some n =>
      by_cases he : n = "" <;>
        simp [hn, he, pokemonModel.updateOne, PokemonService.handleExceptions, hcode]
  · intro p hres hcode
    unfold PokemonService.update
    rw [hres]
    cases hn : d2.name with
    | none =>
      simp [hn, pokemonModel.updateOne, PokemonService.handleExceptions, hcode]
    | some n =>
      by_cases he : n = "" <;>
        simp [hn, he, pokemonModel.updateOne, PokemonService.handleExceptions, hcode]
  · rfl
  · intro msg
    simp [PokemonService.remove, pokemonModel.deleteOne]

/-- C3 counterexample to the claim as stated: a non-duplicate store failure
(driver code 91) during `remove` is NOT translated to `Unavailable` — the
raw store error escapes the Record Service untranslated. -/
theorem C3_counterexample :
    (PokemonService.remove (some ⟨91, []⟩) ⟨[], 0⟩ "aaaaaaaaaaaaaaaaaaaaaaaa").1 =
      .error (.store ⟨91, []⟩) ∧
    (Except.error (.store ⟨91, []⟩) : Except ServiceErr String) ≠
      .error (.http (.internalServerError
        "Problemas con actualizar el pokemon - Chequear los logs")) := by
  decide

/-- C3 witness: duplicate faults surface as bad-request naming the fields,
other faults as the generic unavailable error on `create` and `update`, and
a fault on `remove` escapes raw. -/
theorem C3_witness :
    (PokemonService.create (some ⟨500, []⟩) ⟨[], 0⟩ ⟨"Pikachu", 25⟩).1 =
      .error (.http (.internalServerError
        "Problemas con actualizar el pokemon - Chequear los logs")) ∧
    (PokemonService.create (some ⟨11000, ["name"]⟩) ⟨[], 0⟩ ⟨"Pikachu", 25⟩).1 =
      .error (.http (.badRequest ("Pokemon already exists in db " ++
        String.intercalate "," ["name"]))) ∧
    (PokemonService.update (some ⟨500, []⟩) ⟨[⟨"pikachu", 25, 0⟩], 1⟩ "pikachu"
        ⟨none, some 26⟩).1 =
      .error (.http (.internalServerError
        "Problemas con actualizar el pokemon - Chequear los logs")) ∧
    (PokemonService.remove (some ⟨500, []⟩) ⟨[], 0⟩ (mkObjectId 0)).1 =
      .error (.store ⟨500, []⟩) := by
  have h1 := C3_error_translation ⟨[], 0⟩ ⟨"Pikachu", 25⟩ "x" ⟨none, none⟩ (mkObjectId 0)
    ⟨500, []⟩
  have h2 := C3_error_translation ⟨[], 0⟩ ⟨"Pikachu", 25⟩ "x" ⟨none, none⟩ (mkObjectId 0)
    ⟨11000, ["name"]⟩
  have h3 := C3_error_translation ⟨[⟨"pikachu", 25, 0⟩], 1⟩ ⟨"x", 1⟩ "pikachu"
    ⟨none, some 26⟩ (mkObjectId 0) ⟨500, []⟩
  exact ⟨h1.1 (by decide), h2.2.1 rfl,
    h3.2.2.1 ⟨"pikachu", 25, 0⟩ (by decide) (by decide), h1.2.2.2.2.1⟩

/-- C4 (confirmed): a successful `update` returns exactly the union of the
previously loaded record (the resolver's result, read before the write) and
the supplied partial fields, with a supplied name lower-cased — the value is
computed from the pre-write document and the partial, not re-read from the
store after the write. -/
theorem C4_update_returns_merge (fault : Option DbError) (st : DbState) (term : String)
    (d : UpdatePokemonDto) (p v : Pokemon) (st' : DbState) (d' : UpdatePokemonDto)
    (hres : (PokemonService.findOne st term).1 = .ok p)
    (hup : PokemonService.update fault st term d = (.ok v, st', d')) :
    v = ⟨(d.name.map locLower).getD p.name, d.no.getD p.no, p.id⟩ := by
  obtain ⟨-, q, hq, hno, hname, -, -, hv⟩ := update_ok_elim hup
  have hpq : q = p := Except.ok.inj (hq.symm.trans hres)
  subst hpq
  rw [hv, hname, hno]

/-- C4 witness: updating `pikachu` with `{name: "RAICHU"}` returns the
loaded record merged with the lower-cased partial. -/
theorem C4_witness :
    (⟨"raichu", 25, 0⟩ : Pokemon) =
      ⟨((some "RAICHU").map locLower).getD "pikachu", (none : Option Nat).getD 25, 0⟩ :=
  C4_update_returns_merge none ⟨[⟨"pikachu", 25, 0⟩], 1⟩ "pikachu" ⟨some "RAICHU", none⟩
    ⟨"pikachu", 25, 0⟩ ⟨"raichu", 25, 0⟩ ⟨[⟨"raichu", 25, 0⟩], 1⟩ ⟨some "raichu", none⟩
    (by decide) (by decide)

/-- C5 (confirmed): a create whose (normalized) keys are fresh succeeds; a
second create reusing the first's ordinal, or its name up to casing, fails
with the duplicate-key bad-request naming the conflicting field(s); a
non-duplicate store failure on create surfaces as the generic unavailable
error instead. -/
theorem C5_duplicate_create (st st1 : DbState) (d1 d2 : CreatePokemonDto) (p1 : Pokemon)
    (dto1 : CreatePokemonDto) (e : DbError) :
    (pokemonModel.insertConflicts st ⟨locLower d1.name, d1.no⟩ = [] →
        (PokemonService.create none st d1).1 = .ok ⟨locLower d1.name, d1.no, st.nextId⟩) ∧
    (PokemonService.create none st d1 = (.ok p1, st1, dto1) →
        (d2.no = d1.no ∨ locLower d2.name = locLower d1.name) →
        (PokemonService.create none st1 d2).1 =
            .error (.http (.badRequest ("Pokemon already exists in db " ++
              String.intercalate ","
                (pokemonModel.insertConflicts st1 ⟨locLower d2.name, d2.no⟩)))) ∧
          pokemonModel.insertConflicts st1 ⟨locLower d2.name, d2.no⟩ ≠ [] ∧
          (d2.no = d1.no →
            "no" ∈ pokemonModel.insertConflicts st1 ⟨locLower d2.name, d2.no⟩) ∧
          (locLower d2.name = locLower d1.name →
            "name" ∈ pokemonModel.insertConflicts st1 ⟨locLower d2.name, d2.no⟩)) ∧
    (e.code ≠ 11000 →
        (PokemonService.create (some e) st d1).1 =
          .error (.http (.internalServerError
            "Problemas con actualizar el pokemon - Chequear los logs"))) := by
  refine ⟨?_, ?_, ?_⟩
  · intro hc
    simp [PokemonService.create, pokemonModel.create, hc]
  · intro hok hdup
    obtain ⟨-, hcf, hp, hst, -⟩ := create_ok_elim hok
    have hmem : (⟨locLower d1.name, d1.no, st.nextId⟩ : Pokemon) ∈ st1.docs := by
      rw [hst]
      simp
    have hno : d2.no = d1.no →
        "no" ∈ pokemonModel.insertConflicts st1 ⟨locLower d2.name, d2.no⟩ :=
      fun h => mem_insertConflicts_no.mpr ⟨_, hmem, by simp [h]⟩
    have hnm : locLower d2.name = locLower d1.name →
        "name" ∈ pokemonModel.insertConflicts st1 ⟨locLower d2.name, d2.no⟩ :=
      fun h => mem_insertConflicts_name.mpr ⟨_, hmem, by simp [h]⟩
    have hne : pokemonModel.insertConflicts st1 ⟨locLower d2.name, d2.no⟩ ≠ [] := by
      rcases hdup with h | h
      · exact List.ne_nil_of_mem (hno h)
      · exact List.ne_nil_of_mem (hnm h)
    refine ⟨?_, hne, hno, hnm⟩
    simp [PokemonService.create, pokemonModel.create, hne, PokemonService.handleExceptions]
  · intro hcode
    simp [PokemonService.create, pokemonModel.create, PokemonService.handleExceptions, hcode]

/-- C5 witness: `{Bulbasaur, 1}` creates; `{BULBASAUR, 3}` then fails as a
name duplicate; an injected non-duplicate fault yields the generic error. -/
theorem C5_witness :
    (PokemonService.create none ⟨[], 0⟩ ⟨"Bulbasaur", 1⟩).1 = .ok ⟨"bulbasaur", 1, 0⟩ ∧
    (PokemonService.create none ⟨[⟨"bulbasaur", 1, 0⟩], 1⟩ ⟨"BULBASAUR", 3⟩).1 =
      .error (.http (.badRequest ("Pokemon already exists in db " ++
        String.intercalate ","
          (pokemonModel.insertConflicts ⟨[⟨"bulbasaur", 1, 0⟩], 1⟩ ⟨"bulbasaur", 3⟩)))) ∧
    "name" ∈ pokemonModel.insertConflicts ⟨[⟨"bulbasaur", 1, 0⟩], 1⟩ ⟨"bulbasaur", 3⟩ ∧
    (PokemonService.create (some ⟨123, []⟩) ⟨[], 0⟩ ⟨"Bulbasaur", 1⟩).1 =
      .error (.http (.internalServerError
        "Problemas con actualizar el pokemon - Chequear los logs")) := by
  have h := C5_duplicate_create ⟨[], 0⟩ ⟨[⟨"bulbasaur", 1, 0⟩], 1⟩ ⟨"Bulbasaur", 1⟩
    ⟨"BULBASAUR", 3⟩ ⟨"bulbasaur", 1, 0⟩ ⟨"bulbasaur", 1⟩ ⟨123, []⟩
  have h2 := h.2.1 (by decide) (Or.inr (by decide))
  exact ⟨h.1 (by decide), h2.1, h2.2.2.2 (by decide), h.2.2 (by decide)⟩

/-- C6 (confirmed): every name reaching the store is the lower-cased form of
what was supplied — a successful create persists exactly `locLower` of the
input name, and after any successful create or update every stored name is a
`locLower` fixed point (no non-lower-case character is ever persisted). -/
theorem C6_lowercase_names (fault : Option DbError) (st : DbState) (d : CreatePokemonDto)
    (term : String) (u : UpdatePokemonDto) (hinv : DbInv st) :
    (∀ p st' dto', PokemonService.create fault st d = (.ok p, st', dto') →
        p.name = locLower d.name ∧ ∀ q ∈ st'.docs, locLower q.name = q.name) ∧
    (∀ v st' d', PokemonService.update fault st term u = (.ok v, st', d') →
        (∀ q ∈ st'.docs, locLower q.name = q.name) ∧
        (∀ p, (PokemonService.findOne st term).1 = .ok p →
            (∃ q ∈ st'.docs, q.id = p.id) ∧
            (∀ n, u.name = some n →
                ∀ q ∈ st'.docs, q.id = p.id → q.name = locLower n) ∧
            (u.name = none → ∀ q ∈ st'.docs, q.id = p.id → q.name = p.name))) := by
  constructor
  · intro p st' dto' h
    obtain ⟨-, -, hp, hst, -⟩ := create_ok_elim h
    subst hst
    refine ⟨by rw [hp], ?_⟩
    intro q hq
    rcases List.mem_append.mp hq with h' | h'
    · exact hinv.2.1 q h'
    · rcases List.mem_singleton.mp h' with rfl
      exact locLower_idem d.name
  · intro v st' d' h
    obtain ⟨-, p0, hres0, hno, hname, -, hst, -⟩ := update_ok_elim h
    subst hst
    constructor
    · intro q hq
      obtain ⟨q0, hq0, hmap⟩ := List.mem_map.mp hq
      by_cases hid : q0.id = p0.id
      · rw [if_pos hid] at hmap
        subst hmap
        show locLower (pokemonModel.applyUpdate d' q0).name = _
        cases hn : u.name with
        | none =>
          have : d'.name = none := by rw [hname, hn]; rfl
          simp [pokemonModel.applyUpdate, this]
          exact hinv.2.1 q0 hq0
        | some n =>
          have : d'.name = some (locLower n) := by rw [hname, hn]; rfl
          simp [pokemonModel.applyUpdate, this]
          exact locLower_idem n
      · rw [if_neg hid] at hmap
        subst hmap
        exact hinv.2.1 q0 hq0
    · intro p hres
      have hp0 : p0 = p := Except.ok.inj (hres0.symm.trans hres)
      subst hp0
      have hpmem : p0 ∈ st.docs := findOne_ok_mem hres0
      refine ⟨?_, ?_, ?_⟩
      · refine ⟨pokemonModel.applyUpdate d' p0, ?_, rfl⟩
        apply List.mem_map.mpr
        exact ⟨p0, hpmem, by simp⟩
      · intro n hn q hq hqid
        obtain ⟨q0, hq0, hmap⟩ := List.mem_map.mp hq
        by_cases hid : q0.id = p0.id
        · rw [if_pos hid] at hmap
          subst hmap
          have hd' : d'.name = some (locLower n) := by rw [hname, hn]; rfl
          simp [pokemonModel.applyUpdate, hd']
        · rw [if_neg hid] at hmap
          subst hmap
          exact absurd hqid hid
      · intro hn q hq hqid
        obtain ⟨q0, hq0, hmap⟩ := List.mem_map.mp hq
        by_cases hid : q0.id = p0.id
        · rw [if_pos hid] at hmap
          subst hmap
          have hq0p : q0 = p0 := hinv.ids_inj q0 hq0 p0 hpmem hid
          have hd' : d'.name = none := by rw [hname, hn]; rfl
          simp [pokemonModel.applyUpdate, hd', hq0p]
        · rw [if_neg hid] at hmap
          subst hmap
          exact absurd hqid hid

/-- C6 witness: creating `{PiKaChU, 25}` stores `pikachu`; updating it to
`{RAICHU, 26}` leaves only `locLower`-fixed names in the store and the
updated document (the one carrying the resolved record's id) stores exactly
`locLower "RAICHU"`. -/
theorem C6_witness :
    ((⟨"pikachu", 25, 0⟩ : Pokemon).name = locLower "PiKaChU" ∧
      ∀ q ∈ [(⟨"pikachu", 25, 0⟩ : Pokemon)], locLower q.name = q.name) ∧
    (∀ q ∈ [(⟨"raichu", 26, 0⟩ : Pokemon)], locLower q.name = q.name) ∧
    (∀ q ∈ [(⟨"raichu", 26, 0⟩ : Pokemon)], q.id = (⟨"pikachu", 25, 0⟩ : Pokemon).id →
      q.name = locLower "RAICHU") := by
  have h1 := C6_lowercase_names none ⟨[], 0⟩ ⟨"PiKaChU", 25⟩ "x" ⟨none, none⟩
    (by unfold DbInv; decide)
  have h2 := C6_lowercase_names none ⟨[⟨"pikachu", 25, 0⟩], 1⟩ ⟨"x", 1⟩ "pikachu"
    ⟨some "RAICHU", some 26⟩ (by unfold DbInv; decide)
  have hu := h2.2 ⟨"raichu", 26, 0⟩ ⟨[⟨"raichu", 26, 0⟩], 1⟩ ⟨some "raichu", some 26⟩
    (by decide)
  exact ⟨h1.1 ⟨"pikachu", 25, 0⟩ ⟨[⟨"pikachu", 25, 0⟩], 1⟩ ⟨"pikachu", 25⟩ (by decide),
    hu.1, (hu.2 ⟨"pikachu", 25, 0⟩ (by decide)).2.1 "RAICHU" rfl⟩

/-- C7 (confirmed): when the term resolves to no record, `update` fails with
the resolver's `NotFound` before any write — the store state is returned
unchanged and the supplied partial is untouched (the resolver can only fail
with `NotFound`). -/
theorem C7_update_notfound (fault : Option DbError) (st : DbState) (term : String)
    (d : UpdatePokemonDto) (e : Err) (h : (PokemonService.findOne st term).1 = .error e) :
    PokemonService.update fault st term d =
      (.error (.http (.notFound ("Pokemon con término \"" ++ term ++ "\" no encontrado"))),
        st, d) := by
  have he := findOne_error_notFound h
  subst he
  exact update_resolve_error h

/-- C7 witness: updating the missing term `missingno` on a one-record store
fails with `NotFound` and leaves store and partial untouched. -/
theorem C7_witness :
    PokemonService.update none ⟨[⟨"pikachu", 25, 0⟩], 1⟩ "missingno" ⟨some "X", none⟩ =
      (.error (.http (.notFound
        ("Pokemon con término \"" ++ "missingno" ++ "\" no encontrado"))),
        ⟨[⟨"pikachu", 25, 0⟩], 1⟩, ⟨some "X", none⟩) :=
  C7_update_notfound none ⟨[⟨"pikachu", 25, 0⟩], 1⟩ "missingno" ⟨some "X", none⟩
    (.notFound ("Pokemon con término \"" ++ "missingno" ++ "\" no encontrado")) (by decide)

/-- C8 (confirmed): for a well-formed storage identifier, `remove` raises
`NotFound` exactly when the point lookup misses (zero documents removed),
returning the store unchanged; when a document matches it returns the plain
success message (no record payload) with that one document erased. -/
theorem C8_remove_semantics (st : DbState) (idStr : String)
    (hid : isValidObjectId idStr = true) :
    (pokemonModel.findById st idStr = none →
        PokemonService.remove none st idStr =
          (.error (.http (.notFound ("Pokemon con id \"" ++ idStr ++ "\" no encontrado"))),
            st)) ∧
    (∀ p, pokemonModel.findById st idStr = some p →
        PokemonService.remove none st idStr =
          (.ok "Pokemon eliminado",
            ⟨st.docs.eraseP (fun q => mkObjectId q.id == idStr), st.nextId⟩)) := by
  constructor
  · intro h
    have h' : st.docs.find? (fun p => mkObjectId p.id == idStr) = none := h
    simp [PokemonService.remove, pokemonModel.deleteOne, hid, h']
  · intro p h
    have h' : st.docs.find? (fun q => mkObjectId q.id == idStr) = some p := h
    simp [PokemonService.remove, pokemonModel.deleteOne, hid, h']

/-- C8 witness: removing a missing id fails `NotFound` leaving the store
untouched; removing an existing id acknowledges with the plain message. -/
theorem C8_witness :
    PokemonService.remove none ⟨[⟨"pikachu", 25, 0⟩], 1⟩ (mkObjectId 5) =
      (.error (.http (.notFound
        ("Pokemon con id \"" ++ mkObjectId 5 ++ "\" no encontrado"))),
        ⟨[⟨"pikachu", 25, 0⟩], 1⟩) ∧
    PokemonService.remove none ⟨[⟨"pikachu", 25, 0⟩], 1⟩ (mkObjectId 0) =
      (.ok "Pokemon eliminado", ⟨[], 1⟩) := by
  have h1 := C8_remove_semantics ⟨[⟨"pikachu", 25, 0⟩], 1⟩ (mkObjectId 5)
    (isValidObjectId_mkObjectId 5)
  have h2 := C8_remove_semantics ⟨[⟨"pikachu", 25, 0⟩], 1⟩ (mkObjectId 0)
    (isValidObjectId_mkObjectId 0)
  exact ⟨h1.1 (by decide), (h2.2 ⟨"pikachu", 25, 0⟩ (by decide)).trans (by decide)⟩

/-- C9 (confirmed): an omitted page size defaults to the configured
`defaultLimit` and an omitted offset to 0; the returned sequence is always
sorted ascending by ordinal; and on a store holding ordinals 1..5 the call
with `limit 3, offset 0` returns exactly ordinals 1, 2, 3 in order. -/
theorem C9_findAll_pagination (dl : Nat) (st : DbState) (lim off : Nat) :
    PokemonService.findAll dl st ⟨none, some off⟩ =
        PokemonService.applyLimit dl
          ((List.insertionSort (fun a b => a.no ≤ b.no) st.docs).drop off) ∧
    PokemonService.findAll dl st ⟨some lim, none⟩ =
        PokemonService.applyLimit lim (List.insertionSort (fun a b => a.no ≤ b.no) st.docs) ∧
    List.Sorted (fun a b => a.no ≤ b.no) (PokemonService.findAll dl st ⟨some lim, some off⟩) ∧
    (PokemonService.findAll dl
        ⟨[⟨"c", 3, 2⟩, ⟨"a", 1, 0⟩, ⟨"e", 5, 4⟩, ⟨"b", 2, 1⟩, ⟨"d", 4, 3⟩], 5⟩
        ⟨some 3, some 0⟩).map Pokemon.no = [1, 2, 3] := by
  refine ⟨rfl, rfl, ?_, rfl⟩
  have hs : List.Sorted (fun a b : Pokemon => a.no ≤ b.no)
      (List.insertionSort (fun a b => a.no ≤ b.no) st.docs) :=
    List.sorted_insertionSort _ _
  have hd : List.Sorted (fun a b : Pokemon => a.no ≤ b.no)
      ((List.insertionSort (fun a b => a.no ≤ b.no) st.docs).drop off) :=
    List.Pairwise.sublist (List.drop_sublist _ _) hs
  show List.Sorted (fun a b : Pokemon => a.no ≤ b.no)
    (PokemonService.applyLimit lim
      ((List.insertionSort (fun a b => a.no ≤ b.no) st.docs).drop off))
  unfold PokemonService.applyLimit
  split
  · exact hd
  · exact List.Pairwise.sublist (List.take_sublist _ _) hd

/-- C10 (amended): `create` always lower-cases the name of its own input
object in place, also when the call fails; `update`, however, normalizes the
supplied partial in place only after term resolution succeeds — when the
term does not resolve, the call fails with `NotFound` and the caller's
partial is left untouched. -/
theorem C10_dto_mutation (fault : Option DbError) (st : DbState) (d : CreatePokemonDto)
    (term : String) (u : UpdatePokemonDto) :
    ((PokemonService.create fault st d).2.2).name = locLower d.name ∧
    (∀ p, (PokemonService.findOne st term).1 = .ok p →
        ((PokemonService.update fault st term u).2.2).name = u.name.map locLower) ∧
    (∀ e : Err, (PokemonService.findOne st term).1 = .error e →
        (PokemonService.update fault st term u).2.2 = u) := by
  refine ⟨?_, ?_, ?_⟩
  · cases hm : pokemonModel.create fault st { d with name := locLower d.name } with
    | ok pr => simp [PokemonService.create, hm]
    | error e => simp [PokemonService.create, hm]
  · intro p hres
    unfold PokemonService.update
    rw [hres]
    cases hn : u.name with
    | none =>
      cases hm : pokemonModel.updateOne fault st p.id u with
      | ok st2 => simp [hn, hm]
      | error e => simp [hn, hm]
    | some n =>
      by_cases he : n = ""
      · subst he
        simp only [hn, if_pos rfl]
        cases hm : pokemonModel.updateOne fault st p.id u with
        | ok st2 => simp [hn, hm]; decide
        | error e => simp [hn, hm]; decide
      · simp only [hn, if_neg he]
        cases hm : pokemonModel.updateOne fault st p.id { u with name := some (locLower n) } with
        | ok st2 => simp [hn, hm]
        | error e => simp [hn, hm]
  · intro e hres
    rw [update_resolve_error hres]

/-- C10 counterexample to the claim as stated: an `update` that fails with
`NotFound` returns with the caller's partial NOT normalized — the supplied
name is still upper-case after the call. -/
theorem C10_counterexample :
    (PokemonService.update none ⟨[], 0⟩ "bulbasaur" ⟨some "PIKACHU", none⟩).1 =
      .error (.http (.notFound "Pokemon con término \"bulbasaur\" no encontrado")) ∧
    (PokemonService.update none ⟨[], 0⟩ "bulbasaur" ⟨some "PIKACHU", none⟩).2.2 =
      ⟨some "PIKACHU", none⟩ ∧
    (⟨some "PIKACHU", none⟩ : UpdatePokemonDto) ≠ ⟨some "pikachu", none⟩ := by
  decide

/-- C10 witness: a create mutates its dto's name in place; an update whose
term resolves mutates the partial's name in place; an update whose term does
not resolve leaves the partial untouched. -/
theorem C10_witness :
    ((PokemonService.create none ⟨[], 0⟩ ⟨"PIKACHU", 25⟩).2.2).name = locLower "PIKACHU" ∧
    ((PokemonService.update none ⟨[⟨"pikachu", 25, 0⟩], 1⟩ "pikachu"
        ⟨some "RAICHU", none⟩).2.2).name = (some "RAICHU").map locLower ∧
    (PokemonService.update none ⟨[], 0⟩ "missingno" ⟨some "RAICHU", none⟩).2.2 =
      ⟨some "RAICHU", none⟩ := by
  have h1 := C10_dto_mutation none ⟨[], 0⟩ ⟨"PIKACHU", 25⟩ "x" ⟨none, none⟩
  have h2 := C10_dto_mutation none ⟨[⟨"pikachu", 25, 0⟩], 1⟩ ⟨"x", 1⟩ "pikachu"
    ⟨some "RAICHU", none⟩
  have h3 := C10_dto_mutation none ⟨[], 0⟩ ⟨"x", 1⟩ "missingno" ⟨some "RAICHU", none⟩
  exact ⟨h1.1, h2.2.1 ⟨"pikachu", 25, 0⟩ (by decide),
    h3.2.2 (.notFound ("Pokemon con término \"" ++ "missingno" ++ "\" no encontrado"))
      (by decide)⟩
